import Mathlib

/-!
Verification of the img3dlite geometry pipeline.

The definitions below are a shallow embedding of the TypeScript sources
  src/utils/imageToShape.ts
  src/utils/buildIntersectionGeometry.ts
  src/App.tsx
JavaScript numbers are modelled as exact rationals; a value that fails the
Number.isFinite guard (null, NaN, infinity) is modelled as the value none
of an Option type.  External libraries (OpenCV.js, the THREE extrusion and
the three-bvh-csg boolean evaluator) are not part of the repository and
appear only as opaque parameters or as the already-produced inputs of the
in-repository functions.
-/

namespace Img3D

/-- A 2D point with finite coordinates (a THREE.Vector2 whose x and y pass
the Number.isFinite tests).  Coordinates are exact rationals. -/
structure Vector2 where
  x : ℚ
  y : ℚ
deriving DecidableEq

/-- A raw JavaScript point as it reaches the polygon helpers: some p for a
usable finite point, none for a value that fails the
p && Number.isFinite(p.x) && Number.isFinite(p.y) test. -/
abbrev RawPt := Option Vector2

/-- The shoelace cross term p.x * q.y - q.x * p.y. -/
def crossZ (p q : Vector2) : ℚ := p.x * q.y - q.x * p.y

/-- One iteration of the polygonSignedArea loop
(src/utils/imageToShape.ts lines 157-164): the pair contributes its cross
term unless either point fails the finiteness guard, in which case the
iteration is skipped. -/
def rawTerm : RawPt × RawPt → ℚ
  | (some p, some q) => crossZ p q
  | _ => 0

/-- polygonSignedArea (src/utils/imageToShape.ts lines 154-166): half the
sum of cross terms over the index pairs (i, (i+1) % n); zero when fewer
than three points. -/
def polygonSignedArea (points : List RawPt) : ℚ :=
  if points.length < 3 then 0
  else (((points.zip (points.rotate 1)).map rawTerm).sum) / 2

/-- normalizeWinding (src/utils/imageToShape.ts lines 110-119): force the
orientation of a polygon; clockwise means negative signed area. -/
def normalizeWinding (points : List RawPt) (clockwise : Bool) : List RawPt :=
  if points.length < 3 then points
  else
    let isClockWise : Bool := decide (polygonSignedArea points < 0)
    if isClockWise = clockwise then points else points.reverse

/-- The body of the deduplication loop in sanitizePolygonPoints
(src/utils/imageToShape.ts lines 131-136): push the point unless it equals
the last pushed point. -/
def dedupStep (acc : List Vector2) (p : Vector2) : List Vector2 :=
  if acc.getLast? = some p then acc else acc ++ [p]

/-- sanitizePolygonPoints (src/utils/imageToShape.ts lines 125-152): drop
non-finite points, collapse consecutive exact duplicates, drop a trailing
point equal to the first, reject (empty result) when fewer than three
points remain or the absolute shoelace area is below 1e-4.
The Number.isFinite(area) guard of line 147 is omitted: rational
arithmetic is always finite. -/
def sanitizePolygonPoints (points : List RawPt) : List Vector2 :=
  let finite := points.filterMap id
  if finite.length < 3 then []
  else
    let deduped := finite.foldl dedupStep []
    let deduped2 :=
      if 2 ≤ deduped.length ∧ deduped.head? = deduped.getLast? then deduped.dropLast
      else deduped
    if deduped2.length < 3 then []
    else
      let area := |polygonSignedArea (deduped2.map some)|
      if area < 1 / 10000 then [] else deduped2

/-- ensureClosedPoints (src/utils/imageToShape.ts lines 90-100): append a
copy of the first point when a polygon of at least three points is not
already explicitly closed. -/
def ensureClosedPoints (points : List Vector2) : List Vector2 :=
  if points.length < 3 then points
  else if points.head? = points.getLast? then points
  else points ++ points.take 1

/-- contourMatToPoints (src/utils/imageToShape.ts lines 168-193): pair up
the flat 32-bit integer coordinate buffer and map image coordinates
(top-left origin, Y down) to the centered Y-up frame.  The per-coordinate
finiteness check is vacuous because data32S holds 32-bit integers; a
trailing unpaired value reads an undefined y and is skipped. -/
def toPairs : List ℤ → List (ℤ × ℤ)
  | x :: y :: rest => (x, y) :: toPairs rest
  | _ => []

def contourMatToPoints (flat : List ℤ) (imageWidth imageHeight : ℚ) : List Vector2 :=
  if flat.length < 2 then []
  else (toPairs flat).map fun xy =>
    ⟨(xy.1 : ℚ) - imageWidth / 2, imageHeight / 2 - (xy.2 : ℚ)⟩

/-! ### Spec-side cleanup functions

The next definitions restate the cleanup steps of the sanitizer as direct
recursions; they are compared with the loop-based source translation
above. -/

/-- After having kept the point a, skip following points equal to the last
kept point and keep the rest (structural form of the deduplication loop). -/
def dedupAfterHead (a : Vector2) : List Vector2 → List Vector2
  | [] => []
  | q :: rest => if a = q then dedupAfterHead a rest else q :: dedupAfterHead q rest

/-- Collapse consecutive exactly-equal duplicate points. -/
def dedupConsecutive : List Vector2 → List Vector2
  | [] => []
  | p :: rest => p :: dedupAfterHead p rest

/-- Drop a trailing point equal to the first point (single pop). -/
def dropClosingPoint (l : List Vector2) : List Vector2 :=
  if 2 ≤ l.length ∧ l.head? = l.getLast? then l.dropLast else l

/-- The full cleanup performed by the sanitizer before its size and area
checks: drop non-finite points, collapse consecutive duplicates, drop the
explicit closure point. -/
def cleanedPoints (points : List RawPt) : List Vector2 :=
  dropClosingPoint (dedupConsecutive (points.filterMap id))

/-! ### Shoelace sums in structured form -/

/-- Sum of cross terms over consecutive pairs (no wrap-around). -/
def crossSum : List Vector2 → ℚ
  | p :: q :: rest => crossZ p q + crossSum (q :: rest)
  | _ => 0

/-- The wrap-around term from the last point back to the first. -/
def closeTerm (l : List Vector2) : ℚ :=
  match l.getLast?, l.head? with
  | some t, some h => crossZ t h
  | _, _ => 0

/-- Twice the signed area of a polygon given by finite points. -/
def shoelace (l : List Vector2) : ℚ := crossSum l + closeTerm l

/-- The contribution of the edge from p to the first point of l. -/
def headTerm (p : Vector2) (l : List Vector2) : ℚ :=
  match l with
  | [] => 0
  | q :: _ => crossZ p q

/-- The contribution of the edge from the last point of l to c. -/
def lastTerm (l : List Vector2) (c : Vector2) : ℚ :=
  match l.getLast? with
  | none => 0
  | some t => crossZ t c


/-! ### Shapes, extraction, and storage -/

/-- The model of a THREE.Shape as stored by the pipeline: the outer
contour point list and one point list per hole path. -/
structure Shape where
  contour : List RawPt
  holes : List (List RawPt)
deriving DecidableEq

/-- The per-candidate processing of extractShapesFromBinaryMat
(src/utils/imageToShape.ts lines 421-461).  The outer contour point buffer
(already simplified by cv.approxPolyDP, external to the repository) is
mapped to the centered Y-up frame by contourMatToPoints, forced
counter-clockwise by normalizeWinding and cleaned by
sanitizePolygonPoints; a Shape is produced when at least three points
survive.  Each hole buffer that survived the external minimum-area filter
is forced clockwise, sanitized, and stored through buildPath.  Both the
outer contour (line 428) and every hole (buildPath, lines 102-108) are
stored explicitly closed through ensureClosedPoints. -/
def extractShapeFromContours (imageWidth imageHeight : ℚ)
    (flatOuter : List ℤ) (flatHoles : List (List ℤ)) : Option Shape :=
  let outerPointsRaw := contourMatToPoints flatOuter imageWidth imageHeight
  let outerPoints := sanitizePolygonPoints (normalizeWinding (outerPointsRaw.map some) false)
  if 3 ≤ outerPoints.length then
    some
      { contour := (ensureClosedPoints outerPoints).map some
        holes := flatHoles.filterMap fun flatHole =>
          let holePointsRaw := contourMatToPoints flatHole imageWidth imageHeight
          let holePoints :=
            sanitizePolygonPoints (normalizeWinding (holePointsRaw.map some) true)
          if 3 ≤ holePoints.length then some ((ensureClosedPoints holePoints).map some)
          else none }
  else none

/-! ### Buffer geometries (App.tsx and buildIntersectionGeometry.ts) -/

/-- A 3D point with finite rational coordinates. -/
structure Vector3 where
  x : ℚ
  y : ℚ
  z : ℚ
deriving DecidableEq

/-- A THREE.BufferGeometry modelled by its vertex position buffer.  Vertex
normals, uv attributes and the triangle index are not modelled: none of
the verified operations reads them, and computeVertexNormals does not
change positions. -/
abbrev Mesh := List Vector3

/-- Minimum over a list of rationals, seeded at the first element (the
bounding-box loops of THREE start from the first vertex); 0 on the empty
list, matching the zero-sized empty THREE.Box3. -/
def listMin : List ℚ → ℚ
  | [] => 0
  | x :: xs => xs.foldl min x

def listMax : List ℚ → ℚ
  | [] => 0
  | x :: xs => xs.foldl max x

def bboxSizeX (g : Mesh) : ℚ := listMax (g.map Vector3.x) - listMin (g.map Vector3.x)

def bboxSizeY (g : Mesh) : ℚ := listMax (g.map Vector3.y) - listMin (g.map Vector3.y)

def bboxSizeZ (g : Mesh) : ℚ := listMax (g.map Vector3.z) - listMin (g.map Vector3.z)

/-- The largest bounding-box edge, Math.max(size.x, size.y, size.z). -/
def maxDim (g : Mesh) : ℚ := max (max (bboxSizeX g) (bboxSizeY g)) (bboxSizeZ g)

/-- The bounding-box center (THREE.Box3.getCenter). -/
def bboxCenter (g : Mesh) : Vector3 :=
  ⟨(listMin (g.map Vector3.x) + listMax (g.map Vector3.x)) / 2,
   (listMin (g.map Vector3.y) + listMax (g.map Vector3.y)) / 2,
   (listMin (g.map Vector3.z) + listMax (g.map Vector3.z)) / 2⟩

/-- BufferGeometry.translate. -/
def translateMesh (g : Mesh) (tx ty tz : ℚ) : Mesh :=
  g.map fun p => ⟨p.x + tx, p.y + ty, p.z + tz⟩

/-- BufferGeometry.scale with a uniform factor. -/
def scaleMesh (g : Mesh) (k : ℚ) : Mesh :=
  g.map fun p => ⟨k * p.x, k * p.y, k * p.z⟩

/-- centerGeometry (src/utils/buildIntersectionGeometry.ts lines 87-96):
translate so the bounding-box center moves to the origin; the final
computeVertexNormals call does not change positions. -/
def centerGeometry (g : Mesh) : Mesh :=
  let c := bboxCenter g
  translateMesh g (-c.x) (-c.y) (-c.z)

/-- The TARGET_MAX_DIMENSION constant of buildIntersectionGeometry.ts. -/
def TARGET_MAX_DIMENSION : ℚ := 120

/-- normalizeGeometrySize (src/utils/buildIntersectionGeometry.ts lines
98-114): when the largest bounding-box edge is positive, scale uniformly
to the target size and recenter; otherwise return the geometry unchanged.
The Number.isFinite(maxDim) guard is omitted: rational arithmetic is
always finite. -/
def normalizeGeometrySize (g : Mesh) (targetMaxDimension : ℚ) : Mesh :=
  let m := maxDim g
  if m ≤ 0 then g
  else centerGeometry (scaleMesh g (targetMaxDimension / m))

/-! ### Depth selection (src/App.tsx lines 25-63) -/

def MIN_EXTRUSION_DEPTH : ℚ := 300

/-- The three optional per-view shapes held by the App state. -/
structure ShapesByView where
  front : Option Shape
  top : Option Shape
  side : Option Shape
deriving DecidableEq

/-- getShapeMaxDimension (src/App.tsx lines 28-46): the larger edge of the
axis-aligned bounding box of the finite points of the outer contour; 0
when fewer than two finite points. -/
def getShapeMaxDimension (shape : Shape) : ℚ :=
  let points := shape.contour.filterMap id
  if points.length < 2 then 0
  else
    max (listMax (points.map Vector2.x) - listMin (points.map Vector2.x))
      (listMax (points.map Vector2.y) - listMin (points.map Vector2.y))

/-- The present shapes, in the fixed front, top, side order. -/
def presentShapes (shapes : ShapesByView) : List Shape :=
  [shapes.front, shapes.top, shapes.side].filterMap id

/-- The maxDimension accumulator loop of computeExtrusionDepth. -/
def sharedMaxDimension (shapes : ShapesByView) : ℚ :=
  (presentShapes shapes).foldl (fun m s => max m (getShapeMaxDimension s)) 0

/-- computeExtrusionDepth (src/App.tsx lines 48-63): 300 when no shape is
present or the accumulated dimension is not positive, otherwise
max(300, ceil(2.5 times the accumulated dimension)).  The
Number.isFinite(maxDimension) guard is omitted: rational arithmetic is
always finite. -/
def computeExtrusionDepth (shapes : ShapesByView) : ℚ :=
  if presentShapes shapes = [] then MIN_EXTRUSION_DEPTH
  else if sharedMaxDimension shapes ≤ 0 then MIN_EXTRUSION_DEPTH
  else max MIN_EXTRUSION_DEPTH ((⌈sharedMaxDimension shapes * (5 / 2)⌉ : ℤ) : ℚ)

/-! ### The intersection builder (src/utils/buildIntersectionGeometry.ts) -/

/-- sanitizeShape (src/utils/buildIntersectionGeometry.ts lines 48-85):
re-filter and re-validate an incoming shape, force the outer contour
counter-clockwise and every hole clockwise, and drop invalid holes.  The
Number.isFinite(area) guards are omitted: rational arithmetic is always
finite. -/
def sanitizeShape (shape : Shape) : Option Shape :=
  let contour := shape.contour.filterMap id
  if contour.length < 3 then none
  else if |polygonSignedArea (contour.map some)| < 1 / 10000 then none
  else
    let normalizedContour :=
      if polygonSignedArea (contour.map some) < 0 then contour.reverse else contour
    some
      { contour := normalizedContour.map some
        holes := shape.holes.filterMap fun hole =>
          let holePoints := hole.filterMap id
          if holePoints.length < 3 then none
          else if |polygonSignedArea (holePoints.map some)| < 1 / 10000 then none
          else
            let normalizedHole :=
              if polygonSignedArea (holePoints.map some) < 0 then holePoints
              else holePoints.reverse
            some (normalizedHole.map some) }

/-- The operations the builder delegates to external libraries:
THREE.ExtrudeGeometry together with the per-view centering and rotation
(createFrontGeometry, createTopGeometry, createSideGeometry, lines
116-148), and the three-bvh-csg Evaluator.evaluate call with the
INTERSECTION operation.  A none result models a thrown exception, caught
by the corresponding try/catch of the builder. -/
structure CSGOps where
  extrudeFront : Shape → ℚ → Option Mesh
  extrudeTop : Shape → ℚ → Option Mesh
  extrudeSide : Shape → ℚ → Option Mesh
  evaluateIntersection : Mesh → Mesh → Option Mesh

/-- GeometryBuildDebugResult with the geometry and the error message; the
logs array of human-readable debug strings is not modelled. -/
structure BuildResult where
  geometry : Option Mesh
  error : Option String
deriving DecidableEq

def missingInputError : String := "one or more input shapes are missing"

def sanitizationFailedError : String :=
  "shape sanitization failed (invalid contour or too small area)"

/-- buildIntersectionGeometryWithDebug
(src/utils/buildIntersectionGeometry.ts lines 161-261): guard missing
inputs, re-sanitize the three shapes, extrude each view, then evaluate
front INTERSECTION top followed by (front INTERSECTION top) INTERSECTION
side, and finally normalize the result to TARGET_MAX_DIMENSION.  Error
messages keep the constant prefix of the source template strings. -/
def buildIntersectionGeometryWithDebug (ops : CSGOps) (shapes : ShapesByView)
    (depth : ℚ) : BuildResult :=
  match shapes.front, shapes.top, shapes.side with
  | some f, some t, some s =>
    match sanitizeShape f, sanitizeShape t, sanitizeShape s with
    | some safeFront, some safeTop, some safeSide =>
      match ops.extrudeFront safeFront depth with
      | none => ⟨none, some "front extrude failed"⟩
      | some frontGeo =>
        match ops.extrudeTop safeTop depth with
        | none => ⟨none, some "top extrude failed"⟩
        | some topGeo =>
          match ops.extrudeSide safeSide depth with
          | none => ⟨none, some "side extrude failed"⟩
          | some sideGeo =>
            match ops.evaluateIntersection frontGeo topGeo with
            | none => ⟨none, some "csg intersection failed"⟩
            | some r1 =>
              match ops.evaluateIntersection r1 sideGeo with
              | none => ⟨none, some "csg intersection failed"⟩
              | some r2 =>
                ⟨some (normalizeGeometrySize r2 TARGET_MAX_DIMENSION), none⟩
    | _, _, _ => ⟨none, some sanitizationFailedError⟩
  | _, _, _ => ⟨none, some missingInputError⟩


/-! ### Elementary facts about the shoelace sums -/

lemma crossZ_self (a : Vector2) : crossZ a a = 0 := by
  simp [crossZ, mul_comm]

lemma crossZ_antisymm (p q : Vector2) : crossZ p q = -crossZ q p := by
  unfold crossZ; ring

lemma lastTerm_cons_cons (p q : Vector2) (m : List Vector2) (c : Vector2) :
    lastTerm (p :: q :: m) c = lastTerm (q :: m) c := by
  simp [lastTerm, List.getLast?_cons_cons]

lemma lastTerm_single (p c : Vector2) : lastTerm [p] c = crossZ p c := by
  simp [lastTerm]

lemma crossSum_cons (p : Vector2) (l : List Vector2) :
    crossSum (p :: l) = headTerm p l + crossSum l := by
  cases l with
  | nil => simp [crossSum, headTerm]
  | cons q m => simp [crossSum, headTerm]

lemma crossSum_concat (l : List Vector2) (c : Vector2) :
    crossSum (l ++ [c]) = crossSum l + lastTerm l c := by
  induction l with
  | nil => simp [crossSum, lastTerm]
  | cons p m ih =>
    rw [List.cons_append, crossSum_cons, ih, crossSum_cons]
    cases m with
    | nil => simp [headTerm, crossSum, lastTerm]
    | cons q m2 =>
      rw [lastTerm_cons_cons]
      have h1 : headTerm p ((q :: m2) ++ [c]) = headTerm p (q :: m2) := by
        simp [headTerm]
      rw [h1]
      ring

lemma closeTerm_cons (p : Vector2) (m : List Vector2) :
    closeTerm (p :: m) = crossZ (m.getLastD p) p := by
  simp [closeTerm, List.getLast?_cons]

lemma shoelace_snoc_head (a : Vector2) (m : List Vector2) :
    shoelace (a :: (m ++ [a])) = shoelace (a :: m) := by
  unfold shoelace
  have h1 : a :: (m ++ [a]) = (a :: m) ++ [a] := by simp
  have h2 : closeTerm ((a :: m) ++ [a]) = 0 := by
    have hgl : ((a :: m) ++ [a]).getLast? = some a := List.getLast?_concat _
    have hhd : ((a :: m) ++ [a]).head? = some a := by simp
    unfold closeTerm
    rw [hgl, hhd]
    exact crossZ_self a
  have h3 : closeTerm (a :: m) = lastTerm (a :: m) a := by
    rw [closeTerm_cons]
    simp [lastTerm, List.getLast?_cons]
  rw [h1, h2, crossSum_concat, h3]
  ring

lemma crossSum_reverse (l : List Vector2) : crossSum l.reverse = -crossSum l := by
  induction l with
  | nil => simp [crossSum]
  | cons p m ih =>
    rw [List.reverse_cons, crossSum_concat, ih, crossSum_cons]
    cases m with
    | nil => simp [headTerm, lastTerm, crossSum]
    | cons q m2 =>
      have h1 : lastTerm (q :: m2).reverse p = crossZ q p := by
        simp [lastTerm, List.getLast?_reverse]
      have h2 : headTerm p (q :: m2) = crossZ p q := rfl
      rw [h1, h2, crossZ_antisymm q p]
      ring

lemma closeTerm_reverse (l : List Vector2) : closeTerm l.reverse = -closeTerm l := by
  cases l with
  | nil => simp [closeTerm]
  | cons p m =>
    unfold closeTerm
    rw [List.getLast?_reverse, List.head?_reverse, List.getLast?_cons]
    simp only [List.head?_cons]
    exact crossZ_antisymm _ _

lemma shoelace_reverse (l : List Vector2) : shoelace l.reverse = -shoelace l := by
  unfold shoelace
  rw [crossSum_reverse, closeTerm_reverse]
  ring

/-! ### The bridge between polygonSignedArea and the structured shoelace -/

lemma zipRotAux (l : List Vector2) : ∀ (a c : Vector2),
    ((((a :: l).map some).zip ((l.map some) ++ [some c])).map rawTerm).sum
      = crossSum (a :: l) + crossZ (l.getLastD a) c := by
  induction l with
  | nil =>
    intro a c
    simp [rawTerm, crossSum, crossZ]
  | cons b m ih =>
    intro a c
    have h1 : (((a :: b :: m).map some).zip (((b :: m).map some) ++ [some c]))
        = (some a, some b) :: (((b :: m).map some).zip ((m.map some) ++ [some c])) := rfl
    rw [h1, List.map_cons, List.sum_cons, ih b c]
    have h2 : crossSum (a :: b :: m) = crossZ a b + crossSum (b :: m) := rfl
    have h3 : rawTerm (some a, some b) = crossZ a b := rfl
    rw [h2, h3, List.getLastD_cons]
    ring

lemma polygonSignedArea_map_some (l : List Vector2) (h : 3 ≤ l.length) :
    polygonSignedArea (l.map some) = shoelace l / 2 := by
  cases l with
  | nil => simp at h
  | cons a rest =>
    unfold polygonSignedArea
    have hlen : ((a :: rest).map some).length = (a :: rest).length := by simp
    rw [if_neg (by rw [hlen]; omega)]
    have hrot : ((a :: rest).map some).rotate 1 = (rest.map some) ++ [some a] := by
      have h0 : ((a :: rest).map some) = some a :: rest.map some := rfl
      rw [h0, List.rotate_cons_succ, List.rotate_zero]
    rw [hrot, zipRotAux rest a a]
    unfold shoelace
    rw [closeTerm_cons]

lemma shoelace_eq_of_area (l : List Vector2) (h : 3 ≤ l.length) :
    shoelace l = 2 * polygonSignedArea (l.map some) := by
  rw [polygonSignedArea_map_some l h]
  ring

/-! ### Properties of the duplicate-collapsing cleanup -/

lemma dedupAfterHead_getLast? (l : List Vector2) : ∀ a : Vector2,
    (a :: dedupAfterHead a l).getLast? = (a :: l).getLast? := by
  induction l with
  | nil => intro a; rfl
  | cons q rest ih =>
    intro a
    by_cases h : a = q
    · rw [dedupAfterHead, if_pos h, ih a, h, List.getLast?_cons_cons]
    · rw [dedupAfterHead, if_neg h, List.getLast?_cons_cons, List.getLast?_cons_cons]
      exact ih q

lemma dedupAfterHead_crossSum (l : List Vector2) : ∀ a : Vector2,
    crossSum (a :: dedupAfterHead a l) = crossSum (a :: l) := by
  induction l with
  | nil => intro a; rfl
  | cons q rest ih =>
    intro a
    by_cases h : a = q
    · rw [dedupAfterHead, if_pos h, ih a]
      have h2 : crossSum (a :: q :: rest) = crossZ a q + crossSum (q :: rest) := rfl
      rw [h2, ← h, crossZ_self, zero_add]
    · rw [dedupAfterHead, if_neg h]
      have h2 : crossSum (a :: q :: dedupAfterHead q rest)
          = crossZ a q + crossSum (q :: dedupAfterHead q rest) := rfl
      have h3 : crossSum (a :: q :: rest) = crossZ a q + crossSum (q :: rest) := rfl
      rw [h2, h3, ih q]

lemma dedupAfterHead_chain (l : List Vector2) : ∀ a : Vector2,
    List.Chain' (fun u v => u ≠ v) (a :: dedupAfterHead a l) := by
  induction l with
  | nil => intro a; simp [dedupAfterHead]
  | cons q rest ih =>
    intro a
    by_cases h : a = q
    · rw [dedupAfterHead, if_pos h]; exact ih a
    · rw [dedupAfterHead, if_neg h]
      exact List.chain'_cons.mpr ⟨h, ih q⟩

lemma dedupAfterHead_id_of_chain (l : List Vector2) : ∀ a : Vector2,
    List.Chain' (fun u v => u ≠ v) (a :: l) → dedupAfterHead a l = l := by
  induction l with
  | nil => intro a _; rfl
  | cons q rest ih =>
    intro a hch
    obtain ⟨hne, htail⟩ := List.chain'_cons.mp hch
    rw [dedupAfterHead, if_neg hne, ih q htail]

lemma dedupAfterHead_length (l : List Vector2) : ∀ a : Vector2,
    (dedupAfterHead a l).length ≤ l.length := by
  induction l with
  | nil => intro a; simp [dedupAfterHead]
  | cons q rest ih =>
    intro a
    by_cases h : a = q
    · rw [dedupAfterHead, if_pos h]
      exact le_trans (ih a) (Nat.le_succ _)
    · rw [dedupAfterHead, if_neg h]
      simpa using ih q

lemma foldl_dedupStep (l : List Vector2) : ∀ (acc : List Vector2) (a : Vector2),
    List.foldl dedupStep (acc ++ [a]) l = acc ++ a :: dedupAfterHead a l := by
  induction l with
  | nil => intro acc a; rfl
  | cons q rest ih =>
    intro acc a
    have hstep : dedupStep (acc ++ [a]) q
        = if a = q then acc ++ [a] else (acc ++ [a]) ++ [q] := by
      unfold dedupStep
      rw [List.getLast?_concat]
      by_cases h : a = q
      · rw [if_pos (by rw [h]), if_pos h]
      · rw [if_neg (by simpa using h), if_neg h]
    rw [List.foldl_cons, hstep]
    by_cases h : a = q
    · rw [if_pos h, ih acc a, dedupAfterHead, if_pos h]
    · rw [if_neg h, ih (acc ++ [a]) q, dedupAfterHead, if_neg h, List.append_assoc]
      rfl

lemma dedupLoop_eq (l : List Vector2) : l.foldl dedupStep [] = dedupConsecutive l := by
  cases l with
  | nil => rfl
  | cons p rest =>
    have hstep : dedupStep [] p = [] ++ [p] := by
      unfold dedupStep
      rw [if_neg (by simp)]
    rw [List.foldl_cons, hstep, foldl_dedupStep rest [] p]
    rfl

lemma dedup_head? (l : List Vector2) : (dedupConsecutive l).head? = l.head? := by
  cases l <;> rfl

lemma dedup_getLast? (l : List Vector2) : (dedupConsecutive l).getLast? = l.getLast? := by
  cases l with
  | nil => rfl
  | cons p rest => exact dedupAfterHead_getLast? rest p

lemma dedup_chain (l : List Vector2) :
    List.Chain' (fun u v => u ≠ v) (dedupConsecutive l) := by
  cases l with
  | nil => simp [dedupConsecutive]
  | cons p rest => exact dedupAfterHead_chain rest p

lemma dedup_id_of_chain (l : List Vector2)
    (h : List.Chain' (fun u v => u ≠ v) l) : dedupConsecutive l = l := by
  cases l with
  | nil => rfl
  | cons p rest =>
    rw [dedupConsecutive, dedupAfterHead_id_of_chain rest p h]

lemma dedup_length (l : List Vector2) : (dedupConsecutive l).length ≤ l.length := by
  cases l with
  | nil => simp [dedupConsecutive]
  | cons p rest =>
    rw [dedupConsecutive]
    simpa using dedupAfterHead_length rest p

lemma closeTerm_congr {l₁ l₂ : List Vector2} (h1 : l₁.getLast? = l₂.getLast?)
    (h2 : l₁.head? = l₂.head?) : closeTerm l₁ = closeTerm l₂ := by
  unfold closeTerm
  rw [h1, h2]

lemma dedup_shoelace (l : List Vector2) : shoelace (dedupConsecutive l) = shoelace l := by
  cases l with
  | nil => rfl
  | cons p rest =>
    unfold shoelace
    rw [dedupConsecutive, dedupAfterHead_crossSum rest p,
      closeTerm_congr (dedupAfterHead_getLast? rest p) rfl]

/-! ### Properties of the trailing-point drop -/

lemma chain'_dropLast {l : List Vector2}
    (h : List.Chain' (fun u v => u ≠ v) l) :
    List.Chain' (fun u v => u ≠ v) l.dropLast := by
  rcases eq_or_ne l [] with hl | hl
  · subst hl; simp
  · have hsplit : l.dropLast ++ [l.getLast hl] = l := List.dropLast_append_getLast hl
    rw [← hsplit] at h
    exact (List.chain'_append.mp h).1

/-- Decomposition of a list whose head equals its last element and whose
length is at least two. -/
lemma closed_decomp {l : List Vector2} (hlen : 2 ≤ l.length)
    (heq : l.head? = l.getLast?) :
    ∃ (a : Vector2) (m : List Vector2), l = a :: (m ++ [a]) ∧ l.dropLast = a :: m := by
  cases l with
  | nil => simp at hlen
  | cons a rest =>
    cases rest with
    | nil => simp at hlen
    | cons b m2 =>
      have hgl : (a :: b :: m2).getLast? = some ((b :: m2).getLast (by simp)) := by
        rw [List.getLast?_cons_cons]
        exact List.getLast?_eq_getLast _ (by simp)
      rw [List.head?_cons, hgl] at heq
      have hlast : (b :: m2).getLast (by simp) = a := by
        exact (Option.some_injective _ heq).symm
      have hsplit : (b :: m2).dropLast ++ [(b :: m2).getLast (by simp)] = b :: m2 :=
        List.dropLast_append_getLast _
      rw [hlast] at hsplit
      refine ⟨a, (b :: m2).dropLast, ?_, ?_⟩
      · conv_lhs => rw [show (b :: m2) = (b :: m2).dropLast ++ [a] from hsplit.symm]
      · rw [List.dropLast_cons₂]

lemma dropClosing_shoelace (l : List Vector2) :
    shoelace (dropClosingPoint l) = shoelace l := by
  unfold dropClosingPoint
  by_cases h : 2 ≤ l.length ∧ l.head? = l.getLast?
  · rw [if_pos h]
    obtain ⟨a, m, hl, hdrop⟩ := closed_decomp h.1 h.2
    rw [hdrop]
    conv_rhs => rw [hl]
    exact (shoelace_snoc_head a m).symm
  · rw [if_neg h]

lemma dropClosing_chain {l : List Vector2}
    (h : List.Chain' (fun u v => u ≠ v) l) :
    List.Chain' (fun u v => u ≠ v) (dropClosingPoint l) := by
  unfold dropClosingPoint
  by_cases hc : 2 ≤ l.length ∧ l.head? = l.getLast?
  · rw [if_pos hc]; exact chain'_dropLast h
  · rw [if_neg hc]; exact h

lemma dropClosing_length (l : List Vector2) :
    (dropClosingPoint l).length ≤ l.length := by
  unfold dropClosingPoint
  by_cases hc : 2 ≤ l.length ∧ l.head? = l.getLast?
  · rw [if_pos hc]
    simp [Nat.sub_le]
  · rw [if_neg hc]

lemma dropClosing_ends {l : List Vector2}
    (hch : List.Chain' (fun u v => u ≠ v) l)
    (h2 : 2 ≤ (dropClosingPoint l).length) :
    (dropClosingPoint l).head? ≠ (dropClosingPoint l).getLast? := by
  unfold dropClosingPoint at h2 ⊢
  by_cases hc : 2 ≤ l.length ∧ l.head? = l.getLast?
  · rw [if_pos hc] at h2 ⊢
    obtain ⟨a, m, hl, hdrop⟩ := closed_decomp hc.1 hc.2
    rw [hdrop] at h2 ⊢
    have hm : m ≠ [] := by
      intro hme
      rw [hme] at h2
      simp at h2
    have hchm : List.Chain' (fun u v => u ≠ v) ((a :: m) ++ [a]) := by
      rw [← List.cons_append] at hl
      rw [← hl]
      exact hch
    have hrel := (List.chain'_append.mp hchm).2.2
    have hglm : (a :: m).getLast? = some (m.getLast hm) := by
      rw [List.getLast?_cons]
      rw [List.getLast?_eq_getLast m hm]
      simp
    have hne : m.getLast hm ≠ a := by
      intro heq
      exact (hrel (m.getLast hm) (by simp [hglm]) a (by simp)) heq
    rw [List.head?_cons, hglm]
    intro hcon
    exact hne (Option.some_injective _ hcon).symm
  · rw [if_neg hc] at h2 ⊢
    push_neg at hc
    exact hc h2

lemma dropClosing_of_ne_ends {l : List Vector2}
    (h : l.head? ≠ l.getLast?) : dropClosingPoint l = l := by
  unfold dropClosingPoint
  rw [if_neg (by intro hc; exact h hc.2)]

/-! ### The sanitizer: loop form versus spec form -/

lemma filterMap_id_map_some (l : List Vector2) : (l.map some).filterMap id = l := by
  induction l with
  | nil => rfl
  | cons p m ih => simp only [List.map_cons, List.filterMap_cons, id, ih]

lemma cleaned_length_le (pts : List RawPt) :
    (cleanedPoints pts).length ≤ (pts.filterMap id).length := by
  unfold cleanedPoints
  exact le_trans (dropClosing_length _) (dedup_length _)

lemma sanitize_unfold (pts : List RawPt) :
    sanitizePolygonPoints pts =
      if (pts.filterMap id).length < 3 then []
      else if (cleanedPoints pts).length < 3 then []
      else if |polygonSignedArea ((cleanedPoints pts).map some)| < 1 / 10000 then []
      else cleanedPoints pts := by
  simp only [sanitizePolygonPoints, cleanedPoints, dropClosingPoint, dedupLoop_eq]

lemma sanitize_eq (pts : List RawPt) :
    sanitizePolygonPoints pts =
      if (cleanedPoints pts).length < 3 ∨
          |polygonSignedArea ((cleanedPoints pts).map some)| < 1 / 10000 then []
      else cleanedPoints pts := by
  rw [sanitize_unfold]
  by_cases h1 : (pts.filterMap id).length < 3
  · rw [if_pos h1]
    have hlen : (cleanedPoints pts).length < 3 :=
      lt_of_le_of_lt (cleaned_length_le pts) h1
    rw [if_pos (Or.inl hlen)]
  · rw [if_neg h1]
    by_cases h2 : (cleanedPoints pts).length < 3
    · rw [if_pos h2, if_pos (Or.inl h2)]
    · rw [if_neg h2]
      by_cases h3 : |polygonSignedArea ((cleanedPoints pts).map some)| < 1 / 10000
      · rw [if_pos h3, if_pos (Or.inr h3)]
      · rw [if_neg h3, if_neg (not_or.mpr ⟨h2, h3⟩)]

lemma sanitize_of_ne (pts : List RawPt) (h : sanitizePolygonPoints pts ≠ []) :
    sanitizePolygonPoints pts = cleanedPoints pts ∧ 3 ≤ (cleanedPoints pts).length ∧
      1 / 10000 ≤ |polygonSignedArea ((cleanedPoints pts).map some)| := by
  rw [sanitize_eq] at h ⊢
  by_cases hc : (cleanedPoints pts).length < 3 ∨
      |polygonSignedArea ((cleanedPoints pts).map some)| < 1 / 10000
  · rw [if_pos hc] at h
    exact absurd rfl h
  · rw [if_neg hc]
    push_neg at hc
    exact ⟨rfl, hc.1, hc.2⟩

lemma cleaned_shoelace (pts : List RawPt) :
    shoelace (cleanedPoints pts) = shoelace (pts.filterMap id) := by
  unfold cleanedPoints
  rw [dropClosing_shoelace, dedup_shoelace]

lemma cleaned_chain (pts : List RawPt) :
    List.Chain' (fun u v => u ≠ v) (cleanedPoints pts) := by
  unfold cleanedPoints
  exact dropClosing_chain (dedup_chain _)

lemma cleaned_ends (pts : List RawPt) (h : 2 ≤ (cleanedPoints pts).length) :
    (cleanedPoints pts).head? ≠ (cleanedPoints pts).getLast? := by
  unfold cleanedPoints at h ⊢
  exact dropClosing_ends (dedup_chain _) h

lemma cleaned_of_clean (l : List Vector2)
    (hch : List.Chain' (fun u v => u ≠ v) l) (hne : l.head? ≠ l.getLast?) :
    cleanedPoints (l.map some) = l := by
  unfold cleanedPoints
  rw [filterMap_id_map_some, dedup_id_of_chain l hch, dropClosing_of_ne_ends hne]

lemma sanitize_idem (pts : List RawPt) :
    sanitizePolygonPoints ((sanitizePolygonPoints pts).map some) = sanitizePolygonPoints pts := by
  by_cases h : sanitizePolygonPoints pts = []
  · rw [h]
    decide
  · obtain ⟨he, hlen, harea⟩ := sanitize_of_ne pts h
    have hch : List.Chain' (fun u v => u ≠ v) (sanitizePolygonPoints pts) := by
      rw [he]; exact cleaned_chain pts
    have hne : (sanitizePolygonPoints pts).head? ≠ (sanitizePolygonPoints pts).getLast? := by
      rw [he]
      exact cleaned_ends pts (by omega)
    rw [sanitize_eq ((sanitizePolygonPoints pts).map some),
      cleaned_of_clean _ hch hne]
    have hlen2 : ¬(sanitizePolygonPoints pts).length < 3 := by rw [he]; omega
    have harea2 : ¬|polygonSignedArea ((sanitizePolygonPoints pts).map some)| < 1 / 10000 := by
      rw [he]
      exact not_lt.mpr harea
    rw [if_neg (not_or.mpr ⟨hlen2, harea2⟩)]

/-! ### Properties of the explicit closure -/

lemma ensureClosed_shoelace (l : List Vector2) :
    shoelace (ensureClosedPoints l) = shoelace l := by
  unfold ensureClosedPoints
  by_cases h1 : l.length < 3
  · rw [if_pos h1]
  · rw [if_neg h1]
    by_cases h2 : l.head? = l.getLast?
    · rw [if_pos h2]
    · rw [if_neg h2]
      cases l with
      | nil => rfl
      | cons a m =>
        show shoelace ((a :: m) ++ [a]) = shoelace (a :: m)
        exact shoelace_snoc_head a m

lemma ensureClosed_ends (l : List Vector2) (h3 : 3 ≤ l.length) :
    (ensureClosedPoints l).head? = (ensureClosedPoints l).getLast? := by
  unfold ensureClosedPoints
  rw [if_neg (by omega)]
  by_cases h2 : l.head? = l.getLast?
  · rw [if_pos h2]
    exact h2
  · rw [if_neg h2]
    cases l with
    | nil => simp at h3
    | cons a m =>
      show ((a :: m) ++ [a]).head? = ((a :: m) ++ [a]).getLast?
      rw [List.getLast?_concat]
      simp

lemma ensureClosed_length (l : List Vector2) (h3 : 3 ≤ l.length) :
    3 ≤ (ensureClosedPoints l).length := by
  unfold ensureClosedPoints
  rw [if_neg (by omega)]
  by_cases h2 : l.head? = l.getLast?
  · rw [if_pos h2]
    exact h3
  · rw [if_neg h2]
    rw [List.length_append]
    omega

lemma ensureClosed_chain (l : List Vector2)
    (hch : List.Chain' (fun u v => u ≠ v) l) (hne : l.head? ≠ l.getLast?)
    (h3 : 3 ≤ l.length) :
    List.Chain' (fun u v => u ≠ v) (ensureClosedPoints l) := by
  unfold ensureClosedPoints
  rw [if_neg (by omega), if_neg hne]
  cases l with
  | nil => simp at h3
  | cons a m =>
    show List.Chain' (fun u v => u ≠ v) ((a :: m) ++ [a])
    rw [List.chain'_append]
    refine ⟨hch, by simp, ?_⟩
    intro x hx y hy
    have hy2 : a = y := by simpa using hy
    have hx2 : (a :: m).getLast? = some x := by simpa using hx
    subst hy2
    intro hxy
    apply hne
    rw [List.head?_cons, hx2, hxy]

/-! ### Winding normalization on finite points -/

lemma normalizeWinding_spec (l : List Vector2) (cw : Bool) (h : 3 ≤ l.length) :
    ∃ n : List Vector2, normalizeWinding (l.map some) cw = n.map some ∧
      n.length = l.length ∧ (if cw then shoelace n ≤ 0 else 0 ≤ shoelace n) := by
  have harea := polygonSignedArea_map_some l h
  unfold normalizeWinding
  rw [if_neg (by rw [List.length_map]; omega)]
  by_cases hbc : (decide (polygonSignedArea (l.map some) < 0)) = cw
  · rw [if_pos hbc]
    refine ⟨l, rfl, rfl, ?_⟩
    cases cw with
    | true =>
      have hlt : polygonSignedArea (l.map some) < 0 := of_decide_eq_true hbc
      rw [harea] at hlt
      show shoelace l ≤ 0
      linarith
    | false =>
      have hge : ¬polygonSignedArea (l.map some) < 0 := of_decide_eq_false hbc
      rw [harea] at hge
      show 0 ≤ shoelace l
      linarith [not_lt.mp hge]
  · rw [if_neg hbc]
    refine ⟨l.reverse, by rw [List.map_reverse], by simp, ?_⟩
    rw [shoelace_reverse]
    cases cw with
    | true =>
      have hge : ¬polygonSignedArea (l.map some) < 0 := by
        intro hlt
        exact hbc (decide_eq_true hlt)
      rw [harea] at hge
      show -shoelace l ≤ 0
      linarith [not_lt.mp hge]
    | false =>
      have hlt : polygonSignedArea (l.map some) < 0 := by
        by_contra hge
        exact hbc (by rw [decide_eq_false hge])
      rw [harea] at hlt
      show 0 ≤ -shoelace l
      linarith

/-! ### Bounding boxes under translation and scaling -/

lemma foldl_min_add (xs : List ℚ) : ∀ a c : ℚ,
    (xs.map (· + c)).foldl min (a + c) = xs.foldl min a + c := by
  induction xs with
  | nil => intro a c; rfl
  | cons x xs ih =>
    intro a c
    simp only [List.map_cons, List.foldl_cons]
    rw [min_add_add_right, ih]

lemma foldl_max_add (xs : List ℚ) : ∀ a c : ℚ,
    (xs.map (· + c)).foldl max (a + c) = xs.foldl max a + c := by
  induction xs with
  | nil => intro a c; rfl
  | cons x xs ih =>
    intro a c
    simp only [List.map_cons, List.foldl_cons]
    rw [max_add_add_right, ih]

lemma min_mul_nonneg (k a b : ℚ) (hk : 0 ≤ k) : min (k * a) (k * b) = k * min a b := by
  rcases le_total a b with h | h
  · rw [min_eq_left h, min_eq_left (mul_le_mul_of_nonneg_left h hk)]
  · rw [min_eq_right h, min_eq_right (mul_le_mul_of_nonneg_left h hk)]

lemma max_mul_nonneg (k a b : ℚ) (hk : 0 ≤ k) : max (k * a) (k * b) = k * max a b := by
  rcases le_total a b with h | h
  · rw [max_eq_right h, max_eq_right (mul_le_mul_of_nonneg_left h hk)]
  · rw [max_eq_left h, max_eq_left (mul_le_mul_of_nonneg_left h hk)]

lemma foldl_min_mul (xs : List ℚ) (k : ℚ) (hk : 0 ≤ k) : ∀ a : ℚ,
    (xs.map (k * ·)).foldl min (k * a) = k * xs.foldl min a := by
  induction xs with
  | nil => intro a; rfl
  | cons x xs ih =>
    intro a
    simp only [List.map_cons, List.foldl_cons]
    rw [min_mul_nonneg k a x hk, ih]

lemma foldl_max_mul (xs : List ℚ) (k : ℚ) (hk : 0 ≤ k) : ∀ a : ℚ,
    (xs.map (k * ·)).foldl max (k * a) = k * xs.foldl max a := by
  induction xs with
  | nil => intro a; rfl
  | cons x xs ih =>
    intro a
    simp only [List.map_cons, List.foldl_cons]
    rw [max_mul_nonneg k a x hk, ih]

lemma listMin_map_add (l : List ℚ) (c : ℚ) (h : l ≠ []) :
    listMin (l.map (· + c)) = listMin l + c := by
  cases l with
  | nil => exact absurd rfl h
  | cons x xs =>
    simp only [List.map_cons, listMin]
    exact foldl_min_add xs x c

lemma listMax_map_add (l : List ℚ) (c : ℚ) (h : l ≠ []) :
    listMax (l.map (· + c)) = listMax l + c := by
  cases l with
  | nil => exact absurd rfl h
  | cons x xs =>
    simp only [List.map_cons, listMax]
    exact foldl_max_add xs x c

lemma listMin_map_mul (l : List ℚ) (k : ℚ) (hk : 0 ≤ k) (h : l ≠ []) :
    listMin (l.map (k * ·)) = k * listMin l := by
  cases l with
  | nil => exact absurd rfl h
  | cons x xs =>
    simp only [List.map_cons, listMin]
    exact foldl_min_mul xs k hk x

lemma listMax_map_mul (l : List ℚ) (k : ℚ) (hk : 0 ≤ k) (h : l ≠ []) :
    listMax (l.map (k * ·)) = k * listMax l := by
  cases l with
  | nil => exact absurd rfl h
  | cons x xs =>
    simp only [List.map_cons, listMax]
    exact foldl_max_mul xs k hk x

lemma translate_map_x (g : Mesh) (tx ty tz : ℚ) :
    (translateMesh g tx ty tz).map Vector3.x = (g.map Vector3.x).map (· + tx) := by
  simp [translateMesh, List.map_map]

lemma translate_map_y (g : Mesh) (tx ty tz : ℚ) :
    (translateMesh g tx ty tz).map Vector3.y = (g.map Vector3.y).map (· + ty) := by
  simp [translateMesh, List.map_map]

lemma translate_map_z (g : Mesh) (tx ty tz : ℚ) :
    (translateMesh g tx ty tz).map Vector3.z = (g.map Vector3.z).map (· + tz) := by
  simp [translateMesh, List.map_map]

lemma scale_map_x (g : Mesh) (k : ℚ) :
    (scaleMesh g k).map Vector3.x = (g.map Vector3.x).map (k * ·) := by
  simp [scaleMesh, List.map_map]

lemma scale_map_y (g : Mesh) (k : ℚ) :
    (scaleMesh g k).map Vector3.y = (g.map Vector3.y).map (k * ·) := by
  simp [scaleMesh, List.map_map]

lemma scale_map_z (g : Mesh) (k : ℚ) :
    (scaleMesh g k).map Vector3.z = (g.map Vector3.z).map (k * ·) := by
  simp [scaleMesh, List.map_map]

lemma map_coord_ne_nil {g : Mesh} (h : g ≠ []) (f : Vector3 → ℚ) : g.map f ≠ [] := by
  simpa using h

lemma bboxSizeX_translate (g : Mesh) (tx ty tz : ℚ) (h : g ≠ []) :
    bboxSizeX (translateMesh g tx ty tz) = bboxSizeX g := by
  unfold bboxSizeX
  rw [translate_map_x, listMin_map_add _ _ (map_coord_ne_nil h _),
    listMax_map_add _ _ (map_coord_ne_nil h _)]
  ring

lemma bboxSizeY_translate (g : Mesh) (tx ty tz : ℚ) (h : g ≠ []) :
    bboxSizeY (translateMesh g tx ty tz) = bboxSizeY g := by
  unfold bboxSizeY
  rw [translate_map_y, listMin_map_add _ _ (map_coord_ne_nil h _),
    listMax_map_add _ _ (map_coord_ne_nil h _)]
  ring

lemma bboxSizeZ_translate (g : Mesh) (tx ty tz : ℚ) (h : g ≠ []) :
    bboxSizeZ (translateMesh g tx ty tz) = bboxSizeZ g := by
  unfold bboxSizeZ
  rw [translate_map_z, listMin_map_add _ _ (map_coord_ne_nil h _),
    listMax_map_add _ _ (map_coord_ne_nil h _)]
  ring

lemma maxDim_translate (g : Mesh) (tx ty tz : ℚ) (h : g ≠ []) :
    maxDim (translateMesh g tx ty tz) = maxDim g := by
  unfold maxDim
  rw [bboxSizeX_translate g tx ty tz h, bboxSizeY_translate g tx ty tz h,
    bboxSizeZ_translate g tx ty tz h]

lemma bboxSizeX_scale (g : Mesh) (k : ℚ) (hk : 0 ≤ k) (h : g ≠ []) :
    bboxSizeX (scaleMesh g k) = k * bboxSizeX g := by
  unfold bboxSizeX
  rw [scale_map_x, listMin_map_mul _ _ hk (map_coord_ne_nil h _),
    listMax_map_mul _ _ hk (map_coord_ne_nil h _)]
  ring

lemma bboxSizeY_scale (g : Mesh) (k : ℚ) (hk : 0 ≤ k) (h : g ≠ []) :
    bboxSizeY (scaleMesh g k) = k * bboxSizeY g := by
  unfold bboxSizeY
  rw [scale_map_y, listMin_map_mul _ _ hk (map_coord_ne_nil h _),
    listMax_map_mul _ _ hk (map_coord_ne_nil h _)]
  ring

lemma bboxSizeZ_scale (g : Mesh) (k : ℚ) (hk : 0 ≤ k) (h : g ≠ []) :
    bboxSizeZ (scaleMesh g k) = k * bboxSizeZ g := by
  unfold bboxSizeZ
  rw [scale_map_z, listMin_map_mul _ _ hk (map_coord_ne_nil h _),
    listMax_map_mul _ _ hk (map_coord_ne_nil h _)]
  ring

lemma maxDim_scale (g : Mesh) (k : ℚ) (hk : 0 ≤ k) (h : g ≠ []) :
    maxDim (scaleMesh g k) = k * maxDim g := by
  unfold maxDim
  rw [bboxSizeX_scale g k hk h, bboxSizeY_scale g k hk h, bboxSizeZ_scale g k hk h,
    max_mul_nonneg k _ _ hk, max_mul_nonneg k _ _ hk]

lemma bboxCenter_translate (g : Mesh) (tx ty tz : ℚ) (h : g ≠ []) :
    bboxCenter (translateMesh g tx ty tz) =
      ⟨(bboxCenter g).x + tx, (bboxCenter g).y + ty, (bboxCenter g).z + tz⟩ := by
  unfold bboxCenter
  rw [translate_map_x, translate_map_y, translate_map_z,
    listMin_map_add _ _ (map_coord_ne_nil h _), listMax_map_add _ _ (map_coord_ne_nil h _),
    listMin_map_add _ _ (map_coord_ne_nil h _), listMax_map_add _ _ (map_coord_ne_nil h _),
    listMin_map_add _ _ (map_coord_ne_nil h _), listMax_map_add _ _ (map_coord_ne_nil h _)]
  simp only [Vector3.mk.injEq]
  refine ⟨by ring, by ring, by ring⟩

lemma centerGeometry_center (g : Mesh) (h : g ≠ []) :
    bboxCenter (centerGeometry g) = ⟨0, 0, 0⟩ := by
  unfold centerGeometry
  rw [bboxCenter_translate g _ _ _ h]
  simp only [Vector3.mk.injEq]
  refine ⟨by ring, by ring, by ring⟩

lemma centerGeometry_maxDim (g : Mesh) (h : g ≠ []) :
    maxDim (centerGeometry g) = maxDim g := by
  unfold centerGeometry
  exact maxDim_translate g _ _ _ h

lemma maxDim_nil : maxDim ([] : Mesh) = 0 := by
  simp [maxDim, bboxSizeX, bboxSizeY, bboxSizeZ, listMin, listMax]

lemma maxDim_pos_ne_nil {g : Mesh} (h : 0 < maxDim g) : g ≠ [] := by
  intro hg
  rw [hg, maxDim_nil] at h
  exact lt_irrefl 0 h

/-! ### Fold-max facts for the depth computation -/

lemma foldl_max_init_le (l : List Shape) : ∀ a : ℚ,
    a ≤ l.foldl (fun m s => max m (getShapeMaxDimension s)) a := by
  induction l with
  | nil => intro a; exact le_refl a
  | cons s rest ih =>
    intro a
    exact le_trans (le_max_left a (getShapeMaxDimension s)) (ih _)

lemma foldl_max_mem_le (l : List Shape) : ∀ (a : ℚ) (s : Shape), s ∈ l →
    getShapeMaxDimension s ≤ l.foldl (fun m u => max m (getShapeMaxDimension u)) a := by
  induction l with
  | nil => intro a s hs; simp at hs
  | cons t rest ih =>
    intro a s hs
    rcases List.mem_cons.mp hs with h | h
    · subst h
      exact le_trans (le_max_right a (getShapeMaxDimension s)) (foldl_max_init_le rest _)
    · exact ih _ s h

lemma foldl_max_cases (l : List Shape) : ∀ a : ℚ,
    l.foldl (fun m s => max m (getShapeMaxDimension s)) a = a ∨
      ∃ s ∈ l, l.foldl (fun m u => max m (getShapeMaxDimension u)) a
        = getShapeMaxDimension s := by
  induction l with
  | nil => intro a; exact Or.inl rfl
  | cons t rest ih =>
    intro a
    rcases ih (max a (getShapeMaxDimension t)) with h | h
    · simp only [List.foldl_cons]
      rcases le_total a (getShapeMaxDimension t) with hc | hc
      · refine Or.inr ⟨t, List.mem_cons_self t rest, ?_⟩
        rw [h, max_eq_right hc]
      · refine Or.inl ?_
        rw [h, max_eq_left hc]
    · obtain ⟨s, hs, heq⟩ := h
      exact Or.inr ⟨s, List.mem_cons_of_mem t hs, heq⟩

/-! ### Properties of one processed contour -/

/-- Any nonempty output of the normalize-then-sanitize composition used by
the extractor has at least three points, no consecutive duplicates,
distinct first and last points, and a shoelace value whose sign matches
the requested winding and whose magnitude is at least twice the 1e-4 area
threshold. -/
lemma processed_props (raw : List Vector2) (cw : Bool) (out : List Vector2)
    (hout : sanitizePolygonPoints (normalizeWinding (raw.map some) cw) = out)
    (hne : out ≠ []) :
    3 ≤ out.length ∧ List.Chain' (fun u v => u ≠ v) out ∧
      out.head? ≠ out.getLast? ∧
      (if cw then shoelace out ≤ -(1 / 5000) else 1 / 5000 ≤ shoelace out) := by
  by_cases hr3 : 3 ≤ raw.length
  · obtain ⟨n, hn, hnlen, hsign⟩ := normalizeWinding_spec raw cw hr3
    rw [hn] at hout
    have hne2 : sanitizePolygonPoints (n.map some) ≠ [] := by rw [hout]; exact hne
    obtain ⟨he, hlen3, harea⟩ := sanitize_of_ne _ hne2
    have hoc : out = cleanedPoints (n.map some) := by rw [← hout, he]
    have hlen : 3 ≤ out.length := by rw [hoc]; exact hlen3
    have hshoe : shoelace out = shoelace n := by
      rw [hoc, cleaned_shoelace, filterMap_id_map_some]
    have habs : 1 / 5000 ≤ |shoelace out| := by
      rw [polygonSignedArea_map_some _ hlen3, abs_div] at harea
      have h2 : |(2 : ℚ)| = 2 := by norm_num
      rw [h2] at harea
      rw [hoc]
      linarith
    refine ⟨hlen, by rw [hoc]; exact cleaned_chain _, ?_, ?_⟩
    · rw [hoc]
      exact cleaned_ends _ (by omega)
    · cases cw with
      | true =>
        have hle : shoelace out ≤ 0 := by
          rw [hshoe]
          simpa using hsign
        have habs2 : |shoelace out| = -shoelace out := abs_of_nonpos hle
        show shoelace out ≤ -(1 / 5000)
        linarith [habs, habs2.symm.le]
      | false =>
        have hge : 0 ≤ shoelace out := by
          rw [hshoe]
          simpa using hsign
        have habs2 : |shoelace out| = shoelace out := abs_of_nonneg hge
        show 1 / 5000 ≤ shoelace out
        linarith [habs, habs2.le]
  · have hnw : normalizeWinding (raw.map some) cw = raw.map some := by
      unfold normalizeWinding
      rw [if_pos (by rw [List.length_map]; omega)]
    rw [hnw] at hout
    have hempty : sanitizePolygonPoints (raw.map some) = [] := by
      rw [sanitize_eq]
      have hle : (cleanedPoints (raw.map some)).length < 3 := by
        have hl := cleaned_length_le (raw.map some)
        rw [filterMap_id_map_some] at hl
        omega
      rw [if_pos (Or.inl hle)]
    rw [hempty] at hout
    exact absurd hout.symm hne

/-- The signed area of the explicitly closed stored contour equals half
the shoelace value of the sanitized points. -/
lemma closed_area (out : List Vector2) (h3 : 3 ≤ out.length) :
    polygonSignedArea ((ensureClosedPoints out).map some) = shoelace out / 2 := by
  rw [polygonSignedArea_map_some _ (ensureClosed_length out h3), ensureClosed_shoelace]

/-- The stored (explicitly closed) contour has no consecutive duplicates
and equal first and last entries. -/
lemma stored_closed_props (out : List Vector2) (h3 : 3 ≤ out.length)
    (hch : List.Chain' (fun u v => u ≠ v) out) (hne : out.head? ≠ out.getLast?) :
    List.Chain' (fun u v => u ≠ v) ((ensureClosedPoints out).map some) ∧
      ((ensureClosedPoints out).map some).head? = ((ensureClosedPoints out).map some).getLast? := by
  constructor
  · rw [List.chain'_map]
    exact List.Chain'.imp (fun a b hab hsome => hab (Option.some.inj hsome))
      (ensureClosed_chain out hch hne h3)
  · rw [List.head?_map, List.getLast?_map, ensureClosed_ends out h3]

/-! ## Claim theorems -/

/-- C1: every Shape accepted by the contour extraction and sanitization
pipeline has an outer contour of positive signed (shoelace) area and
holes of negative signed area, in the centered Y-up frame.  The winding
forced by normalizeWinding before the cleanup is still valid afterwards:
collapsing exact consecutive duplicates, dropping the closure point, and
re-closing the stored contour all preserve the shoelace area exactly, and
the 1e-4 area threshold keeps the accepted area away from zero. -/
theorem winding_invariant (imageWidth imageHeight : ℚ) (flatOuter : List ℤ)
    (flatHoles : List (List ℤ)) (shape : Shape)
    (hx : extractShapeFromContours imageWidth imageHeight flatOuter flatHoles
      = some shape) :
    0 < polygonSignedArea shape.contour ∧
      ∀ hl ∈ shape.holes, polygonSignedArea hl < 0 := by
  simp only [extractShapeFromContours] at hx
  split at hx
  case isTrue h3len =>
    rw [Option.some_inj] at hx
    subst hx
    constructor
    · set out := sanitizePolygonPoints (normalizeWinding
        ((contourMatToPoints flatOuter imageWidth imageHeight).map some) false) with hout
      have hne : out ≠ [] := by
        intro h0
        rw [h0] at h3len
        simp at h3len
      obtain ⟨hlen, hch, hends, hsign⟩ := processed_props _ false out hout.symm hne
      have hsign2 : 1 / 5000 ≤ shoelace out := by simpa using hsign
      rw [closed_area out hlen]
      linarith
    · intro hl hmem
      rw [List.mem_filterMap] at hmem
      obtain ⟨fh, hfhmem, hfh⟩ := hmem
      split at hfh
      case isTrue hp3 =>
        rw [Option.some_inj] at hfh
        subst hfh
        set hp := sanitizePolygonPoints (normalizeWinding
          ((contourMatToPoints fh imageWidth imageHeight).map some) true) with hhp
        have hne : hp ≠ [] := by
          intro h0
          rw [h0] at hp3
          simp at hp3
        obtain ⟨hlen, hch, hends, hsign⟩ := processed_props _ true hp hhp.symm hne
        have hsign2 : shoelace hp ≤ -(1 / 5000) := by simpa using hsign
        rw [closed_area hp hlen]
        linarith
      case isFalse => exact absurd hfh (by simp)
  case isFalse => exact absurd hx (by simp)

/-! ### Concrete evaluation helpers -/

lemma normalizeWinding_keep (l : List Vector2) (cw : Bool) (h3 : 3 ≤ l.length)
    (h : decide (polygonSignedArea (l.map some) < 0) = cw) :
    normalizeWinding (l.map some) cw = l.map some := by
  unfold normalizeWinding
  rw [if_neg (by rw [List.length_map]; omega), h]
  simp

lemma normalizeWinding_flip (l : List Vector2) (cw : Bool) (h3 : 3 ≤ l.length)
    (h : decide (polygonSignedArea (l.map some) < 0) ≠ cw) :
    normalizeWinding (l.map some) cw = l.reverse.map some := by
  unfold normalizeWinding
  rw [if_neg (by rw [List.length_map]; omega), if_neg (by simpa using h)]
  rw [← List.map_reverse]

lemma sanitize_accepts_of_clean (l : List Vector2)
    (hch : List.Chain' (fun u v => u ≠ v) l) (hne : l.head? ≠ l.getLast?)
    (hlen : 3 ≤ l.length)
    (harea : 1 / 10000 ≤ |polygonSignedArea (l.map some)|) :
    sanitizePolygonPoints (l.map some) = l := by
  rw [sanitize_eq, cleaned_of_clean l hch hne,
    if_neg (not_or.mpr ⟨by omega, not_lt.mpr harea⟩)]

lemma sq_contourMat : contourMatToPoints [0, 0, 10, 0, 10, 10, 0, 10] 0 0
    = [⟨0, 0⟩, ⟨10, 0⟩, ⟨10, -10⟩, ⟨0, -10⟩] := by
  norm_num [contourMatToPoints, toPairs, Vector2.mk.injEq]

lemma sq_area : polygonSignedArea
    ([(⟨0, 0⟩ : Vector2), ⟨10, 0⟩, ⟨10, -10⟩, ⟨0, -10⟩].map some) = -100 := by
  rw [polygonSignedArea_map_some _ (by norm_num)]
  norm_num [shoelace, crossSum, closeTerm, crossZ, List.getLast?, List.getLastD, List.head?]

lemma sqr_area : polygonSignedArea
    ([(⟨0, -10⟩ : Vector2), ⟨10, -10⟩, ⟨10, 0⟩, ⟨0, 0⟩].map some) = 100 := by
  rw [polygonSignedArea_map_some _ (by norm_num)]
  norm_num [shoelace, crossSum, closeTerm, crossZ, List.getLast?, List.getLastD, List.head?]

lemma sq_normalize : normalizeWinding
    ([(⟨0, 0⟩ : Vector2), ⟨10, 0⟩, ⟨10, -10⟩, ⟨0, -10⟩].map some) false
    = [(⟨0, -10⟩ : Vector2), ⟨10, -10⟩, ⟨10, 0⟩, ⟨0, 0⟩].map some := by
  have hlt : polygonSignedArea ([(⟨0, 0⟩ : Vector2), ⟨10, 0⟩, ⟨10, -10⟩, ⟨0, -10⟩].map some) < 0 := by
    rw [sq_area]; norm_num
  rw [normalizeWinding_flip _ false (by norm_num) (by rw [decide_eq_true hlt]; simp)]
  norm_num

lemma sq_sanitize : sanitizePolygonPoints
    ([(⟨0, -10⟩ : Vector2), ⟨10, -10⟩, ⟨10, 0⟩, ⟨0, 0⟩].map some)
    = [⟨0, -10⟩, ⟨10, -10⟩, ⟨10, 0⟩, ⟨0, 0⟩] := by
  apply sanitize_accepts_of_clean
  · norm_num [List.chain'_cons, Vector2.mk.injEq]
  · norm_num [List.getLast?, List.getLastD, Vector2.mk.injEq]
  · norm_num
  · rw [sqr_area]; norm_num

lemma sq_closed : ensureClosedPoints [(⟨0, -10⟩ : Vector2), ⟨10, -10⟩, ⟨10, 0⟩, ⟨0, 0⟩]
    = [⟨0, -10⟩, ⟨10, -10⟩, ⟨10, 0⟩, ⟨0, 0⟩, ⟨0, -10⟩] := by
  norm_num [ensureClosedPoints, List.getLast?, List.getLastD, List.head?, Vector2.mk.injEq]

lemma sq_extract : extractShapeFromContours 0 0 [0, 0, 10, 0, 10, 10, 0, 10] []
    = some ⟨[some ⟨0, -10⟩, some ⟨10, -10⟩, some ⟨10, 0⟩, some ⟨0, 0⟩, some ⟨0, -10⟩], []⟩ := by
  simp only [extractShapeFromContours]
  rw [sq_contourMat, sq_normalize, sq_sanitize, if_pos (by norm_num), sq_closed]
  rfl

lemma shifted_unit_sq_area (dx dy : ℚ) : polygonSignedArea
    ([(⟨dx, dy⟩ : Vector2), ⟨dx + 1, dy⟩, ⟨dx + 1, dy + 1⟩, ⟨dx, dy + 1⟩].map some) = 1 := by
  rw [polygonSignedArea_map_some _ (by norm_num)]
  norm_num [shoelace, crossSum, closeTerm, crossZ, List.getLast?, List.getLastD, List.head?]
  ring

/-- C1 witness: the pipeline output for a concrete 10 by 10 square
silhouette has a positively wound outer contour. -/
theorem winding_invariant_witness :
    0 < polygonSignedArea ((⟨[some ⟨0, -10⟩, some ⟨10, -10⟩, some ⟨10, 0⟩, some ⟨0, 0⟩,
        some ⟨0, -10⟩], []⟩ : Shape)).contour ∧
      ∀ hl ∈ ((⟨[some ⟨0, -10⟩, some ⟨10, -10⟩, some ⟨10, 0⟩, some ⟨0, 0⟩,
        some ⟨0, -10⟩], []⟩ : Shape)).holes, polygonSignedArea hl < 0 :=
  winding_invariant 0 0 [0, 0, 10, 0, 10, 10, 0, 10] [] _ sq_extract

/-- C7 as stated is false: the extractor stores contours explicitly
closed, so the first vertex is duplicated as the last stored vertex.  For
a concrete square silhouette the stored outer contour has five entries
whose head equals its last entry. -/
theorem contour_closure_counterexample :
    extractShapeFromContours 0 0 [0, 0, 10, 0, 10, 10, 0, 10] []
      = some ⟨[some ⟨0, -10⟩, some ⟨10, -10⟩, some ⟨10, 0⟩, some ⟨0, 0⟩,
          some ⟨0, -10⟩], []⟩ ∧
    ([some ⟨0, -10⟩, some ⟨10, -10⟩, some ⟨10, 0⟩, some ⟨0, 0⟩,
        some ⟨0, -10⟩] : List RawPt).head?
      = ([some ⟨0, -10⟩, some ⟨10, -10⟩, some ⟨10, 0⟩, some ⟨0, 0⟩,
        some ⟨0, -10⟩] : List RawPt).getLast? ∧
    2 ≤ ([some ⟨0, -10⟩, some ⟨10, -10⟩, some ⟨10, 0⟩, some ⟨0, 0⟩,
        some (⟨0, -10⟩ : Vector2)] : List RawPt).length := by
  refine ⟨sq_extract, ?_, by norm_num⟩
  simp [List.getLast?]

/-- C7 (amended): for every stored closed contour of an accepted Shape
(the outer contour and every hole path), no two consecutive vertices are
coincident, but the closure is explicit rather than implicit: the
contour is stored with a duplicate of its first vertex appended as the
last vertex (ensureClosedPoints and buildPath), so the first and last
stored entries are always equal. -/
theorem stored_contour_closure (imageWidth imageHeight : ℚ) (flatOuter : List ℤ)
    (flatHoles : List (List ℤ)) (shape : Shape)
    (hx : extractShapeFromContours imageWidth imageHeight flatOuter flatHoles
      = some shape) :
    (List.Chain' (fun u v => u ≠ v) shape.contour ∧
        shape.contour.head? = shape.contour.getLast?) ∧
      ∀ hl ∈ shape.holes,
        List.Chain' (fun u v => u ≠ v) hl ∧ hl.head? = hl.getLast? := by
  simp only [extractShapeFromContours] at hx
  split at hx
  case isTrue h3len =>
    rw [Option.some_inj] at hx
    subst hx
    constructor
    · set out := sanitizePolygonPoints (normalizeWinding
        ((contourMatToPoints flatOuter imageWidth imageHeight).map some) false) with hout
      have hne : out ≠ [] := by
        intro h0
        rw [h0] at h3len
        simp at h3len
      obtain ⟨hlen, hch, hends, _⟩ := processed_props _ false out hout.symm hne
      exact stored_closed_props out hlen hch hends
    · intro hl hmem
      rw [List.mem_filterMap] at hmem
      obtain ⟨fh, hfhmem, hfh⟩ := hmem
      split at hfh
      case isTrue hp3 =>
        rw [Option.some_inj] at hfh
        subst hfh
        set hp := sanitizePolygonPoints (normalizeWinding
          ((contourMatToPoints fh imageWidth imageHeight).map some) true) with hhp
        have hne : hp ≠ [] := by
          intro h0
          rw [h0] at hp3
          simp at hp3
        obtain ⟨hlen, hch, hends, _⟩ := processed_props _ true hp hhp.symm hne
        exact stored_closed_props hp hlen hch hends
      case isFalse => exact absurd hfh (by simp)
  case isFalse => exact absurd hx (by simp)

/-- C7 witness: the amended statement at the concrete square input. -/
theorem stored_contour_closure_witness :
    (List.Chain' (fun u v => u ≠ v)
        ((⟨[some ⟨0, -10⟩, some ⟨10, -10⟩, some ⟨10, 0⟩, some ⟨0, 0⟩,
          some ⟨0, -10⟩], []⟩ : Shape)).contour ∧
      ((⟨[some ⟨0, -10⟩, some ⟨10, -10⟩, some ⟨10, 0⟩, some ⟨0, 0⟩,
          some ⟨0, -10⟩], []⟩ : Shape)).contour.head?
        = ((⟨[some ⟨0, -10⟩, some ⟨10, -10⟩, some ⟨10, 0⟩, some ⟨0, 0⟩,
          some ⟨0, -10⟩], []⟩ : Shape)).contour.getLast?) ∧
      ∀ hl ∈ ((⟨[some ⟨0, -10⟩, some ⟨10, -10⟩, some ⟨10, 0⟩, some ⟨0, 0⟩,
          some ⟨0, -10⟩], []⟩ : Shape)).holes,
        List.Chain' (fun u v => u ≠ v) hl ∧ hl.head? = hl.getLast? :=
  stored_contour_closure 0 0 [0, 0, 10, 0, 10, 10, 0, 10] [] _ sq_extract

/-- C8 as stated is false: a synthetic contour enclosing a 1 by 1 pixel
area (the unit pixel square) is accepted, not rejected, by the polygon
sanitizer; its shoelace area is 1, far above the 1e-4 threshold. -/
theorem unit_square_counterexample :
    sanitizePolygonPoints [some ⟨0, 0⟩, some ⟨1, 0⟩, some ⟨1, 1⟩, some ⟨0, 1⟩]
      = [⟨0, 0⟩, ⟨1, 0⟩, ⟨1, 1⟩, ⟨0, 1⟩] ∧
    polygonSignedArea ([(⟨0, 0⟩ : Vector2), ⟨1, 0⟩, ⟨1, 1⟩, ⟨0, 1⟩].map some) = 1 := by
  constructor
  · show sanitizePolygonPoints
        (([(⟨0, 0⟩ : Vector2), ⟨1, 0⟩, ⟨1, 1⟩, ⟨0, 1⟩]).map some) = _
    apply sanitize_accepts_of_clean
    · norm_num [List.chain'_cons, Vector2.mk.injEq]
    · norm_num [List.getLast?, List.getLastD, Vector2.mk.injEq]
    · norm_num
    · have h1 := shifted_unit_sq_area 0 0
      norm_num at h1
      simp only [List.map_cons, List.map_nil]
      rw [h1]
      norm_num
  · have h1 := shifted_unit_sq_area 0 0
    norm_num at h1
    exact h1

/-- C8 (amended): a synthetic contour enclosing a 1 by 1 pixel area is
always accepted unchanged by the polygon sanitizer, wherever it is
placed; the sanitizer does not read epsilonRatio at all, so the decision
holds for every value of that parameter.  (Pixel-scale specks are culled
by the extractor area filter minAreaRatio times the mask area, not by the
sanitizer.) -/
theorem unit_pixel_square_accepted (dx dy : ℚ) :
    sanitizePolygonPoints
        [some ⟨dx, dy⟩, some ⟨dx + 1, dy⟩, some ⟨dx + 1, dy + 1⟩, some ⟨dx, dy + 1⟩]
      = [⟨dx, dy⟩, ⟨dx + 1, dy⟩, ⟨dx + 1, dy + 1⟩, ⟨dx, dy + 1⟩] := by
  show sanitizePolygonPoints
      (([(⟨dx, dy⟩ : Vector2), ⟨dx + 1, dy⟩, ⟨dx + 1, dy + 1⟩, ⟨dx, dy + 1⟩]).map some) = _
  apply sanitize_accepts_of_clean
  · norm_num [List.chain'_cons, Vector2.mk.injEq]
  · norm_num [List.getLast?, List.getLastD, Vector2.mk.injEq]
  · norm_num
  · rw [shifted_unit_sq_area]
    norm_num

/-- C4: the polygon sanitizer drops non-finite points, collapses
consecutive exactly-equal duplicates, drops a trailing point equal to the
first, and rejects (returns the empty list) exactly when fewer than three
points remain after this cleanup or the absolute shoelace area of the
cleaned polygon is below 1e-4; otherwise it returns the cleaned list. -/
theorem sanitizePolygonPoints_characterization (points : List RawPt) :
    sanitizePolygonPoints points =
      if (cleanedPoints points).length < 3 ∨
          |polygonSignedArea ((cleanedPoints points).map some)| < 1 / 10000 then []
      else cleanedPoints points :=
  sanitize_eq points

/-- C9: the polygon sanitizer is idempotent (re-sanitizing its own output
returns that output unchanged) and pure (equal inputs give equal
outputs). -/
theorem sanitizePolygonPoints_idempotent_pure (points points2 : List RawPt) :
    sanitizePolygonPoints ((sanitizePolygonPoints points).map some)
        = sanitizePolygonPoints points
      ∧ (points2 = points → sanitizePolygonPoints points2 = sanitizePolygonPoints points) :=
  ⟨sanitize_idem points, fun h => by rw [h]⟩

/-- C9 witness: idempotence and purity instantiated at the concrete unit
square input. -/
theorem sanitizePolygonPoints_idempotent_pure_witness :
    sanitizePolygonPoints ((sanitizePolygonPoints
        [some ⟨0, 0⟩, some ⟨1, 0⟩, some ⟨1, 1⟩, some ⟨0, 1⟩]).map some)
      = sanitizePolygonPoints [some ⟨0, 0⟩, some ⟨1, 0⟩, some ⟨1, 1⟩, some ⟨0, 1⟩]
    ∧ sanitizePolygonPoints [some ⟨0, 0⟩, some ⟨1, 0⟩, some ⟨1, 1⟩, some ⟨0, 1⟩]
      = sanitizePolygonPoints [some ⟨0, 0⟩, some ⟨1, 0⟩, some ⟨1, 1⟩, some ⟨0, 1⟩] :=
  ⟨(sanitizePolygonPoints_idempotent_pure
      [some ⟨0, 0⟩, some ⟨1, 0⟩, some ⟨1, 1⟩, some ⟨0, 1⟩]
      [some ⟨0, 0⟩, some ⟨1, 0⟩, some ⟨1, 1⟩, some ⟨0, 1⟩]).1,
    (sanitizePolygonPoints_idempotent_pure
      [some ⟨0, 0⟩, some ⟨1, 0⟩, some ⟨1, 1⟩, some ⟨0, 1⟩]
      [some ⟨0, 0⟩, some ⟨1, 0⟩, some ⟨1, 1⟩, some ⟨0, 1⟩]).2 rfl⟩

/-- C3: when at least one view Shape is present and the accumulated
largest bounding-box edge D is positive, the shared extrusion depth
computed once from all present Shapes equals max(300, ceil(2.5 D)), is at
least max(300, 2.5 D), and D is indeed the largest bounding-box edge over
the present Shapes. -/
theorem computeExtrusionDepth_formula (shapes : ShapesByView)
    (hp : presentShapes shapes ≠ [])
    (hD : 0 < sharedMaxDimension shapes) :
    computeExtrusionDepth shapes
        = max MIN_EXTRUSION_DEPTH ((⌈sharedMaxDimension shapes * (5 / 2)⌉ : ℤ) : ℚ)
      ∧ max MIN_EXTRUSION_DEPTH (sharedMaxDimension shapes * (5 / 2))
          ≤ computeExtrusionDepth shapes
      ∧ (∀ s ∈ presentShapes shapes,
          getShapeMaxDimension s ≤ sharedMaxDimension shapes)
      ∧ ∃ s ∈ presentShapes shapes,
          getShapeMaxDimension s = sharedMaxDimension shapes := by
  have heq : computeExtrusionDepth shapes
      = max MIN_EXTRUSION_DEPTH ((⌈sharedMaxDimension shapes * (5 / 2)⌉ : ℤ) : ℚ) := by
    unfold computeExtrusionDepth
    rw [if_neg hp, if_neg (not_le.mpr hD)]
  refine ⟨heq, ?_, ?_, ?_⟩
  · rw [heq]
    exact max_le_max (le_refl _) (Int.le_ceil _)
  · intro s hs
    exact foldl_max_mem_le _ 0 s hs
  · rcases foldl_max_cases (presentShapes shapes) 0 with hc | hc
    · exfalso
      unfold sharedMaxDimension at hD
      rw [hc] at hD
      exact lt_irrefl 0 hD
    · obtain ⟨s, hs, hceq⟩ := hc
      exact ⟨s, hs, hceq.symm⟩

/-- C10: when no view Shape is present, or every present Shape has a
non-positive bounding-box max dimension, the shared extrusion depth is
exactly the 300 unit floor. -/
theorem computeExtrusionDepth_floor (shapes : ShapesByView)
    (h : presentShapes shapes = [] ∨
      ∀ s ∈ presentShapes shapes, getShapeMaxDimension s ≤ 0) :
    computeExtrusionDepth shapes = 300 := by
  have h300 : MIN_EXTRUSION_DEPTH = 300 := rfl
  rcases h with h | h
  · unfold computeExtrusionDepth
    rw [if_pos h, h300]
  · by_cases hp : presentShapes shapes = []
    · unfold computeExtrusionDepth
      rw [if_pos hp, h300]
    · have hle : sharedMaxDimension shapes ≤ 0 := by
        unfold sharedMaxDimension
        rcases foldl_max_cases (presentShapes shapes) 0 with hc | ⟨s, hs, hceq⟩
        · rw [hc]
        · rw [hceq]
          exact h s hs
      unfold computeExtrusionDepth
      rw [if_neg hp, if_pos hle, h300]

/-- C10 witness: with no shape present at all the depth is 300. -/
theorem computeExtrusionDepth_floor_witness :
    computeExtrusionDepth ⟨none, none, none⟩ = 300 :=
  computeExtrusionDepth_floor ⟨none, none, none⟩ (Or.inl rfl)

/-- C2: unless the intersection mesh bounding box is degenerate (largest
edge at most 0), normalization recenters the bounding-box center exactly
onto the origin and makes the largest bounding-box edge exactly the
target of 120 scene units; a degenerate mesh is returned unmodified. -/
theorem normalizeGeometrySize_spec (g : Mesh) :
    (maxDim g ≤ 0 → normalizeGeometrySize g TARGET_MAX_DIMENSION = g) ∧
    (0 < maxDim g →
      bboxCenter (normalizeGeometrySize g TARGET_MAX_DIMENSION) = ⟨0, 0, 0⟩ ∧
      maxDim (normalizeGeometrySize g TARGET_MAX_DIMENSION) = TARGET_MAX_DIMENSION) := by
  constructor
  · intro h
    simp only [normalizeGeometrySize]
    rw [if_pos h]
  · intro h
    have hg : g ≠ [] := maxDim_pos_ne_nil h
    have hk : (0 : ℚ) ≤ TARGET_MAX_DIMENSION / maxDim g :=
      div_nonneg (by norm_num [TARGET_MAX_DIMENSION]) h.le
    have hs : scaleMesh g (TARGET_MAX_DIMENSION / maxDim g) ≠ [] := by
      simpa [scaleMesh] using hg
    simp only [normalizeGeometrySize]
    rw [if_neg (not_le.mpr h)]
    constructor
    · exact centerGeometry_center _ hs
    · rw [centerGeometry_maxDim _ hs, maxDim_scale g _ hk hg]
      exact div_mul_cancel₀ _ (ne_of_gt h)

/-- C2 witness: a segment of length 60 on the x axis is rescaled to 120
and centered at the origin. -/
theorem normalizeGeometrySize_spec_witness :
    bboxCenter (normalizeGeometrySize [⟨0, 0, 0⟩, ⟨60, 0, 0⟩] TARGET_MAX_DIMENSION)
        = ⟨0, 0, 0⟩ ∧
      maxDim (normalizeGeometrySize [⟨0, 0, 0⟩, ⟨60, 0, 0⟩] TARGET_MAX_DIMENSION)
        = TARGET_MAX_DIMENSION :=
  (normalizeGeometrySize_spec [⟨0, 0, 0⟩, ⟨60, 0, 0⟩]).2 (by
    norm_num [maxDim, bboxSizeX, bboxSizeY, bboxSizeZ, listMin, listMax,
      List.foldl_cons, List.foldl_nil, max_def, min_def])

/-- C3 witness: a single present square Shape of side 10 gives depth
max(300, ceil(25)) together with the bound and the max-dimension
characterization. -/
theorem computeExtrusionDepth_formula_witness :
    computeExtrusionDepth ⟨some ⟨[some ⟨0, 0⟩, some ⟨10, 0⟩, some ⟨10, 10⟩,
          some ⟨0, 10⟩], []⟩, none, none⟩
        = max MIN_EXTRUSION_DEPTH
            ((⌈sharedMaxDimension ⟨some ⟨[some ⟨0, 0⟩, some ⟨10, 0⟩, some ⟨10, 10⟩,
              some ⟨0, 10⟩], []⟩, none, none⟩ * (5 / 2)⌉ : ℤ) : ℚ)
      ∧ max MIN_EXTRUSION_DEPTH
            (sharedMaxDimension ⟨some ⟨[some ⟨0, 0⟩, some ⟨10, 0⟩, some ⟨10, 10⟩,
              some ⟨0, 10⟩], []⟩, none, none⟩ * (5 / 2))
          ≤ computeExtrusionDepth ⟨some ⟨[some ⟨0, 0⟩, some ⟨10, 0⟩, some ⟨10, 10⟩,
              some ⟨0, 10⟩], []⟩, none, none⟩
      ∧ (∀ s ∈ presentShapes ⟨some ⟨[some ⟨0, 0⟩, some ⟨10, 0⟩, some ⟨10, 10⟩,
              some ⟨0, 10⟩], []⟩, none, none⟩,
          getShapeMaxDimension s ≤ sharedMaxDimension ⟨some ⟨[some ⟨0, 0⟩,
            some ⟨10, 0⟩, some ⟨10, 10⟩, some ⟨0, 10⟩], []⟩, none, none⟩)
      ∧ ∃ s ∈ presentShapes ⟨some ⟨[some ⟨0, 0⟩, some ⟨10, 0⟩, some ⟨10, 10⟩,
              some ⟨0, 10⟩], []⟩, none, none⟩,
          getShapeMaxDimension s = sharedMaxDimension ⟨some ⟨[some ⟨0, 0⟩,
            some ⟨10, 0⟩, some ⟨10, 10⟩, some ⟨0, 10⟩], []⟩, none, none⟩ :=
  computeExtrusionDepth_formula
    ⟨some ⟨[some ⟨0, 0⟩, some ⟨10, 0⟩, some ⟨10, 10⟩, some ⟨0, 10⟩], []⟩, none, none⟩
    (by simp [presentShapes])
    (by norm_num [sharedMaxDimension, presentShapes, getShapeMaxDimension, listMin,
      listMax, List.foldl_cons, List.foldl_nil, List.filterMap_cons, max_def, min_def])

/-- The builder re-sanitizer accepts a hole-free counter-clockwise shape
with enough area, unchanged. -/
lemma sanitizeShape_of_valid (l : List Vector2) (hlen : 3 ≤ l.length)
    (hpos : 0 < polygonSignedArea (l.map some))
    (hbig : 1 / 10000 ≤ |polygonSignedArea (l.map some)|) :
    sanitizeShape ⟨l.map some, []⟩ = some ⟨l.map some, []⟩ := by
  simp only [sanitizeShape]
  rw [filterMap_id_map_some]
  rw [if_neg (by omega), if_neg (not_lt.mpr hbig), if_neg (not_lt.mpr hpos.le)]
  rfl

lemma sqp_area : polygonSignedArea
    ([(⟨0, 0⟩ : Vector2), ⟨10, 0⟩, ⟨10, 10⟩, ⟨0, 10⟩].map some) = 100 := by
  rw [polygonSignedArea_map_some _ (by norm_num)]
  norm_num [shoelace, crossSum, closeTerm, crossZ, List.getLast?, List.getLastD, List.head?]

lemma sq_sanitizeShape :
    sanitizeShape ⟨[some ⟨0, 0⟩, some ⟨10, 0⟩, some ⟨10, 10⟩, some ⟨0, 10⟩], []⟩
      = some ⟨[some ⟨0, 0⟩, some ⟨10, 0⟩, some ⟨10, 10⟩, some ⟨0, 10⟩], []⟩ := by
  have h := sanitizeShape_of_valid [(⟨0, 0⟩ : Vector2), ⟨10, 0⟩, ⟨10, 10⟩, ⟨0, 10⟩]
    (by norm_num) (by rw [sqp_area]; norm_num) (by rw [sqp_area]; norm_num)
  simpa using h

/-- C5: the boolean intersection stage evaluates in the fixed order front
INTERSECTION top first, then the result INTERSECTION side, and is
deterministic: the build is a pure function, so identical operations,
shapes and depth give identical output meshes. -/
theorem intersection_order_deterministic (ops : CSGOps) (shapes : ShapesByView)
    (depth : ℚ) (f t s safeF safeT safeS : Shape) (fg tg sg r1 r2 : Mesh)
    (hf : shapes.front = some f) (ht : shapes.top = some t)
    (hs : shapes.side = some s)
    (hsf : sanitizeShape f = some safeF) (hst : sanitizeShape t = some safeT)
    (hss : sanitizeShape s = some safeS)
    (hef : ops.extrudeFront safeF depth = some fg)
    (het : ops.extrudeTop safeT depth = some tg)
    (hes : ops.extrudeSide safeS depth = some sg)
    (h1 : ops.evaluateIntersection fg tg = some r1)
    (h2 : ops.evaluateIntersection r1 sg = some r2) :
    buildIntersectionGeometryWithDebug ops shapes depth
        = ⟨some (normalizeGeometrySize r2 TARGET_MAX_DIMENSION), none⟩
      ∧ ∀ (ops2 : CSGOps) (shapes2 : ShapesByView) (depth2 : ℚ),
          ops2 = ops → shapes2 = shapes → depth2 = depth →
          buildIntersectionGeometryWithDebug ops2 shapes2 depth2
            = buildIntersectionGeometryWithDebug ops shapes depth := by
  constructor
  · unfold buildIntersectionGeometryWithDebug
    simp only [hf, ht, hs, hsf, hst, hss, hef, het, hes, h1, h2]
  · intro ops2 shapes2 depth2 e1 e2 e3
    rw [e1, e2, e3]

/-- C5 witness: a concrete run with marker meshes showing the front-top
then side order. -/
theorem intersection_order_deterministic_witness :
    buildIntersectionGeometryWithDebug
        ⟨fun _ _ => some [⟨1, 0, 0⟩], fun _ _ => some [⟨2, 0, 0⟩],
          fun _ _ => some [⟨3, 0, 0⟩], fun a b => some (a ++ b)⟩
        ⟨some ⟨[some ⟨0, 0⟩, some ⟨10, 0⟩, some ⟨10, 10⟩, some ⟨0, 10⟩], []⟩,
          some ⟨[some ⟨0, 0⟩, some ⟨10, 0⟩, some ⟨10, 10⟩, some ⟨0, 10⟩], []⟩,
          some ⟨[some ⟨0, 0⟩, some ⟨10, 0⟩, some ⟨10, 10⟩, some ⟨0, 10⟩], []⟩⟩ 300
        = ⟨some (normalizeGeometrySize [⟨1, 0, 0⟩, ⟨2, 0, 0⟩, ⟨3, 0, 0⟩]
            TARGET_MAX_DIMENSION), none⟩
      ∧ ∀ (ops2 : CSGOps) (shapes2 : ShapesByView) (depth2 : ℚ),
          ops2 = ⟨fun _ _ => some [⟨1, 0, 0⟩], fun _ _ => some [⟨2, 0, 0⟩],
            fun _ _ => some [⟨3, 0, 0⟩], fun a b => some (a ++ b)⟩ →
          shapes2 = ⟨some ⟨[some ⟨0, 0⟩, some ⟨10, 0⟩, some ⟨10, 10⟩, some ⟨0, 10⟩], []⟩,
            some ⟨[some ⟨0, 0⟩, some ⟨10, 0⟩, some ⟨10, 10⟩, some ⟨0, 10⟩], []⟩,
            some ⟨[some ⟨0, 0⟩, some ⟨10, 0⟩, some ⟨10, 10⟩, some ⟨0, 10⟩], []⟩⟩ →
          depth2 = 300 →
          buildIntersectionGeometryWithDebug ops2 shapes2 depth2
            = buildIntersectionGeometryWithDebug
                ⟨fun _ _ => some [⟨1, 0, 0⟩], fun _ _ => some [⟨2, 0, 0⟩],
                  fun _ _ => some [⟨3, 0, 0⟩], fun a b => some (a ++ b)⟩
                ⟨some ⟨[some ⟨0, 0⟩, some ⟨10, 0⟩, some ⟨10, 10⟩, some ⟨0, 10⟩], []⟩,
                  some ⟨[some ⟨0, 0⟩, some ⟨10, 0⟩, some ⟨10, 10⟩, some ⟨0, 10⟩], []⟩,
                  some ⟨[some ⟨0, 0⟩, some ⟨10, 0⟩, some ⟨10, 10⟩, some ⟨0, 10⟩], []⟩⟩ 300 :=
  intersection_order_deterministic _ _ 300 _ _ _ _ _ _
    [⟨1, 0, 0⟩] [⟨2, 0, 0⟩] [⟨3, 0, 0⟩] [⟨1, 0, 0⟩, ⟨2, 0, 0⟩]
    [⟨1, 0, 0⟩, ⟨2, 0, 0⟩, ⟨3, 0, 0⟩]
    rfl rfl rfl sq_sanitizeShape sq_sanitizeShape sq_sanitizeShape
    rfl rfl rfl rfl rfl

/-- C6: when any of the three view shapes is absent the builder reports
the missing-input error with no geometry, and the result does not depend
on the extrusion and boolean-evaluation operations or on the depth: no
extrusion and no boolean evaluation is performed. -/
theorem missing_input_guard (ops1 ops2 : CSGOps) (shapes : ShapesByView)
    (d1 d2 : ℚ)
    (h : shapes.front = none ∨ shapes.top = none ∨ shapes.side = none) :
    buildIntersectionGeometryWithDebug ops1 shapes d1
        = ⟨none, some missingInputError⟩
      ∧ buildIntersectionGeometryWithDebug ops1 shapes d1
        = buildIntersectionGeometryWithDebug ops2 shapes d2 := by
  have key : ∀ (ops : CSGOps) (d : ℚ),
      buildIntersectionGeometryWithDebug ops shapes d
        = ⟨none, some missingInputError⟩ := by
    intro ops d
    obtain ⟨fo, to2, so⟩ := shapes
    simp only at h
    cases fo <;> cases to2 <;> cases so <;> first
      | rfl
      | (rcases h with h | h | h <;> simp at h)
  exact ⟨key ops1 d1, (key ops1 d1).trans (key ops2 d2).symm⟩

/-- C6 witness: a missing front shape yields the missing-input error for
two different operation records and depths. -/
theorem missing_input_guard_witness :
    buildIntersectionGeometryWithDebug
        ⟨fun _ _ => none, fun _ _ => none, fun _ _ => none, fun _ _ => none⟩
        ⟨none, some ⟨[some ⟨0, 0⟩, some ⟨10, 0⟩, some ⟨10, 10⟩, some ⟨0, 10⟩], []⟩,
          some ⟨[some ⟨0, 0⟩, some ⟨10, 0⟩, some ⟨10, 10⟩, some ⟨0, 10⟩], []⟩⟩ 300
        = ⟨none, some missingInputError⟩
      ∧ buildIntersectionGeometryWithDebug
          ⟨fun _ _ => none, fun _ _ => none, fun _ _ => none, fun _ _ => none⟩
          ⟨none, some ⟨[some ⟨0, 0⟩, some ⟨10, 0⟩, some ⟨10, 10⟩, some ⟨0, 10⟩], []⟩,
            some ⟨[some ⟨0, 0⟩, some ⟨10, 0⟩, some ⟨10, 10⟩, some ⟨0, 10⟩], []⟩⟩ 300
        = buildIntersectionGeometryWithDebug
            ⟨fun _ _ => some [⟨1, 0, 0⟩], fun _ _ => some [⟨1, 0, 0⟩],
              fun _ _ => some [⟨1, 0, 0⟩], fun a b => some (a ++ b)⟩
            ⟨none, some ⟨[some ⟨0, 0⟩, some ⟨10, 0⟩, some ⟨10, 10⟩, some ⟨0, 10⟩], []⟩,
              some ⟨[some ⟨0, 0⟩, some ⟨10, 0⟩, some ⟨10, 10⟩, some ⟨0, 10⟩], []⟩⟩ 540 :=
  missing_input_guard
    ⟨fun _ _ => none, fun _ _ => none, fun _ _ => none, fun _ _ => none⟩
    ⟨fun _ _ => some [⟨1, 0, 0⟩], fun _ _ => some [⟨1, 0, 0⟩],
      fun _ _ => some [⟨1, 0, 0⟩], fun a b => some (a ++ b)⟩
    ⟨none, some ⟨[some ⟨0, 0⟩, some ⟨10, 0⟩, some ⟨10, 10⟩, some ⟨0, 10⟩], []⟩,
      some ⟨[some ⟨0, 0⟩, some ⟨10, 0⟩, some ⟨10, 10⟩, some ⟨0, 10⟩], []⟩⟩
    300 540 (Or.inl rfl)

end Img3D
